import Mathlib

set_option maxRecDepth 8000

/- Shallow embedding of jc's syslog RFC 5424 streaming parser
   (src/jc/parsers/syslog_s.py).

   Python strings are modelled as lists of characters (`Str`).  The
   parser's compiled regular expressions are hand-compiled into
   continuation-passing matchers that reproduce Python `re`'s anchored
   `match` semantics: alternatives are tried in source order, greedy
   pieces prefer the longest prefix and backtrack, lazy pieces prefer
   the shortest, and a match does not have to consume the whole input.
   Character classes are modelled over their ASCII content.  Functions
   imported by the parser from jc.utils / jc.streaming are not part of
   src/ and are modelled from the spec where noted. -/

abbrev Str := List Char

def chars (s : String) : Str := s.data

/-- Python whitespace, used by str.strip / str.rstrip and the regex
classes \s and \S (their ASCII content). -/
def isPyWs (c : Char) : Bool :=
  c = ' ' || c = '\t' || c = '\n' || c = '\r' || c = '\x0b' || c = '\x0c'

def isNonWs (c : Char) : Bool := !isPyWs c

/-- The regex `.` without DOTALL: any character except newline. -/
def isDot (c : Char) : Bool := c ≠ '\n'

def isDigitCh (c : Char) : Bool := '0' ≤ c && c ≤ '9'

/-- The regex \w (ASCII content): letters, digits, underscore. -/
def isWordChar (c : Char) : Bool :=
  ('a' ≤ c && c ≤ 'z') || ('A' ≤ c && c ≤ 'Z') || isDigitCh c || c = '_'

/-- Python str.lstrip(). -/
def lstripWs (s : Str) : Str := s.dropWhile isPyWs

/-- Python str.rstrip(). -/
def rstripWs (s : Str) : Str := (s.reverse.dropWhile isPyWs).reverse

/-- Python str.strip(). -/
def stripWs (s : Str) : Str := lstripWs (rstripWs s)

/-- Python str.replace for a two-character pattern ['\\', p2] replaced by
the single character r: left-to-right, non-overlapping.  Each entry of
the parser's escape_map has this shape. -/
def replace2 (p2 r : Char) : Str → Str
  | [] => []
  | [c] => [c]
  | c1 :: c2 :: rest =>
      if c1 = '\\' && c2 = p2 then r :: replace2 p2 r rest
      else c1 :: replace2 p2 r (c2 :: rest)

/-- escape_map applied the way _process and _extract_kv apply it: the three
str.replace calls in dict insertion order (first backslash-backslash, then
backslash-quote, then backslash-bracket). -/
def applyEscapes (s : Str) : Str :=
  replace2 ']' ']' (replace2 '"' '"' (replace2 '\\' '\\' s))

/- ---------------------------------------------------------------------
   Continuation-passing matchers (Python re backtracking semantics)
   --------------------------------------------------------------------- -/

/-- Ordered alternative on Option, the backtracking combinator. -/
def mplus {α : Type} (a b : Option α) : Option α :=
  match a with
  | some x => some x
  | none => b

/-- Greedy repetition of a character class, at most `max` characters
(zero allowed): longest first, backtracking to shorter prefixes. -/
def repUpTo {α : Type} (p : Char → Bool) : Nat → Str → (Str → Str → Option α) → Option α
  | 0, s, k => k [] s
  | _ + 1, [], k => k [] []
  | m + 1, c :: rest, k =>
      if p c then
        mplus (repUpTo p m rest (fun cap r => k (c :: cap) r)) (k [] (c :: rest))
      else k [] (c :: rest)

/-- Greedy `{1,max}` repetition of a character class. -/
def repGreedy1 {α : Type} (p : Char → Bool) (max : Nat) (s : Str) (k : Str → Str → Option α) : Option α :=
  match s with
  | [] => none
  | c :: rest =>
      if p c then repUpTo p (max - 1) rest (fun cap r => k (c :: cap) r) else none

/-- Greedy unbounded `*` without capture (used for \s*). -/
def repStar {α : Type} (p : Char → Bool) : Str → (Str → Option α) → Option α
  | [], k => k []
  | c :: rest, k =>
      if p c then mplus (repStar p rest k) (k (c :: rest)) else k (c :: rest)

/-- Greedy unbounded `*` with capture (used for the regex value class). -/
def repStarCap {α : Type} (p : Char → Bool) : Str → (Str → Str → Option α) → Option α
  | [], k => k [] []
  | c :: rest, k =>
      if p c then
        mplus (repStarCap p rest (fun cap r => k (c :: cap) r)) (k [] (c :: rest))
      else k [] (c :: rest)

/-- Greedy unbounded `+` with capture (used for `.+` and `\w+`). -/
def repAll1 {α : Type} (p : Char → Bool) : Str → (Str → Str → Option α) → Option α
  | [], _ => none
  | c :: rest, k =>
      if p c then
        mplus (repAll1 p rest (fun cap r => k (c :: cap) r)) (k [c] rest)
      else none

/-- Lazy `+?` repetition of a character class: shortest first, extending
on continuation failure (used for the structured-data `.+?`). -/
def repLazy1 {α : Type} (p : Char → Bool) : Str → (Str → Str → Option α) → Option α
  | [], _ => none
  | c :: rest, k =>
      if p c then
        mplus (k [c] rest) (repLazy1 p rest (fun cap r => k (c :: cap) r))
      else none

/-- Exactly one character of a class, no capture. -/
def oneCh {α : Type} (p : Char → Bool) (s : Str) (k : Str → Option α) : Option α :=
  match s with
  | c :: r => if p c then k r else none
  | [] => none

/-- Exactly one literal character, no capture. -/
def litCh {α : Type} (c : Char) (s : Str) (k : Str → Option α) : Option α :=
  match s with
  | c' :: r => if c' = c then k r else none
  | [] => none

/-- Exactly one character of a class, with capture. -/
def cls1 {α : Type} (p : Char → Bool) (s : Str) (k : Str → Str → Option α) : Option α :=
  match s with
  | c :: r => if p c then k [c] r else none
  | [] => none

/-- A two-character sequence of classes, with capture. -/
def cls2 {α : Type} (p1 p2 : Char → Bool) (s : Str) (k : Str → Str → Option α) : Option α :=
  match s with
  | a :: b :: r => if p1 a && p2 b then k [a, b] r else none
  | _ => none

/- ---------------------------------------------------------------------
   The compiled syslog line pattern (parse, lines 235-254)
   --------------------------------------------------------------------- -/

/-- The priority number alternation `\d|\d{2}|1[1-8]\d|19[01]`, tried in
source order. -/
def matchNum {α : Type} (s : Str) (k : Str → Str → Option α) : Option α :=
  mplus
    (match s with
     | c :: r => if isDigitCh c then k [c] r else none
     | [] => none)
    (mplus
      (match s with
       | c1 :: c2 :: r => if isDigitCh c1 && isDigitCh c2 then k [c1, c2] r else none
       | _ => none)
      (mplus
        (match s with
         | c1 :: c2 :: c3 :: r =>
             if c1 = '1' && ('1' ≤ c2 && c2 ≤ '8') && isDigitCh c3 then k [c1, c2, c3] r
             else none
         | _ => none)
        (match s with
         | c1 :: c2 :: c3 :: r =>
             if c1 = '1' && c2 = '9' && (c3 = '0' || c3 = '1') then k [c1, c2, c3] r
             else none
         | _ => none)))

/-- `(?P<priority><(\d|\d{2}|1[1-8]\d|19[01])>)?` — the capture includes
the angle brackets. -/
def matchPriorityOpt {α : Type} (s : Str) (k : Option Str → Str → Option α) : Option α :=
  mplus
    (litCh '<' s (fun r =>
      matchNum r (fun num r2 =>
        litCh '>' r2 (fun r3 => k (some ('<' :: (num ++ ['>']))) r3))))
    (k none s)

/-- `(?P<version>\d{1,2})?`. -/
def matchVersionOpt {α : Type} (s : Str) (k : Option Str → Str → Option α) : Option α :=
  mplus (repGreedy1 isDigitCh 2 s (fun cap r => k (some cap) r)) (k none s)

/-- `(?P<month>0\d|[1][012])`. -/
def matchMonth {α : Type} (s : Str) (k : Str → Str → Option α) : Option α :=
  mplus (cls2 (fun c => c = '0') isDigitCh s k)
        (cls2 (fun c => c = '1') (fun c => c = '0' || c = '1' || c = '2') s k)

/-- `(?P<mday>[012]\d|3[01])`. -/
def matchMday {α : Type} (s : Str) (k : Str → Str → Option α) : Option α :=
  mplus (cls2 (fun c => c = '0' || c = '1' || c = '2') isDigitCh s k)
        (cls2 (fun c => c = '3') (fun c => c = '0' || c = '1') s k)

/-- `(?P<hour>[01]\d|2[0-4])`. -/
def matchHour {α : Type} (s : Str) (k : Str → Str → Option α) : Option α :=
  mplus (cls2 (fun c => c = '0' || c = '1') isDigitCh s k)
        (cls2 (fun c => c = '2') (fun c => '0' ≤ c && c ≤ '4') s k)

/-- `(?P<minute>[0-5]\d)`. -/
def matchMinute {α : Type} (s : Str) (k : Str → Str → Option α) : Option α :=
  cls2 (fun c => '0' ≤ c && c ≤ '5') isDigitCh s k

/-- `(?P<second>[0-5]\d|60)`. -/
def matchSecond {α : Type} (s : Str) (k : Str → Str → Option α) : Option α :=
  mplus (cls2 (fun c => '0' ≤ c && c ≤ '5') isDigitCh s k)
        (cls2 (fun c => c = '6') (fun c => c = '0') s k)

/-- `(?:\.(?P<secfrac>\d{1,6}))?` — capture here includes the dot. -/
def matchSecfracOpt {α : Type} (s : Str) (k : Str → Str → Option α) : Option α :=
  mplus
    (litCh '.' s (fun r => repGreedy1 isDigitCh 6 r (fun cap r2 => k ('.' :: cap) r2)))
    (k [] s)

/-- `(?P<numoffset>Z|[+-]\d{2}:\d{2})`. -/
def matchNumoffset {α : Type} (s : Str) (k : Str → Str → Option α) : Option α :=
  mplus
    (cls1 (fun c => c = 'Z') s k)
    (cls1 (fun c => c = '+' || c = '-') s (fun sg r =>
      cls1 isDigitCh r (fun d1 r =>
        cls1 isDigitCh r (fun d2 r =>
          litCh ':' r (fun r =>
            cls1 isDigitCh r (fun d3 r =>
              cls1 isDigitCh r (fun d4 r =>
                k (sg ++ (d1 ++ (d2 ++ ':' :: (d3 ++ d4)))) r)))))))

/-- The tail of the full timestamp alternative after its leading [12]
character: `\d{3}-month-mdayThour:minute:second secfrac? numoffset`. -/
def matchTsTail {α : Type} (s : Str) (k : Str → Str → Option α) : Option α :=
  cls1 isDigitCh s (fun y2 r =>
    cls1 isDigitCh r (fun y3 r =>
      cls1 isDigitCh r (fun y4 r =>
        litCh '-' r (fun r =>
          matchMonth r (fun mo r =>
            litCh '-' r (fun r =>
              matchMday r (fun md r =>
                litCh 'T' r (fun r =>
                  matchHour r (fun hh r =>
                    litCh ':' r (fun r =>
                      matchMinute r (fun mi r =>
                        litCh ':' r (fun r =>
                          matchSecond r (fun ss r =>
                            matchSecfracOpt r (fun sf r =>
                              matchNumoffset r (fun off r12 =>
                                k (y2 ++ (y3 ++ (y4 ++ '-' ::
                                    (mo ++ '-' :: (md ++ 'T' ::
                                      (hh ++ ':' :: (mi ++ ':' ::
                                        (ss ++ sf ++ off)))))))) r12)))))))))))))))

/-- The non-placeholder timestamp alternative, beginning with
`(?P<fullyear>[12]\d{3})`. -/
def matchFullTs {α : Type} (s : Str) (k : Str → Str → Option α) : Option α :=
  match s with
  | c0 :: r0 =>
      if c0 = '1' || c0 = '2' then matchTsTail r0 (fun cap r => k (c0 :: cap) r)
      else none
  | [] => none

/-- `(?P<timestamp>-|fulldate)`. -/
def matchTimestamp {α : Type} (s : Str) (k : Str → Str → Option α) : Option α :=
  mplus (cls1 (fun c => c = '-') s k) (matchFullTs s k)

/-- A whitespace-delimited token field `[\S]{1,max}\s` — the capture is
the token, the trailing whitespace is consumed but not captured. -/
def tokenField {α : Type} (max : Nat) (s : Str) (k : Str → Str → Option α) : Option α :=
  repGreedy1 isNonWs max s (fun cap r =>
    match r with
    | c :: r2 => if isPyWs c then k cap r2 else none
    | [] => none)

/-- One structured-data block `\[.+?(?<!\\)\]`: lazy body, and the
closing bracket must not be preceded by a backslash. -/
def bracketUnit {α : Type} (s : Str) (k : Str → Str → Option α) : Option α :=
  litCh '[' s (fun r =>
    repLazy1 isDot r (fun cap r2 =>
      litCh ']' r2 (fun r3 =>
        if cap.getLast? = some '\\' then none
        else k ('[' :: (cap ++ [']'])) r3)))

/-- Greedy `(?:block)+`: after one block, prefer another block, falling
back to stopping; `fuel` bounds the recursion (each block consumes at
least three characters, so any fuel above the input length is exact). -/
def bracketPlus {α : Type} : Nat → Str → (Str → Str → Option α) → Option α
  | 0, _, _ => none
  | fuel + 1, s, k =>
      bracketUnit s (fun cap r =>
        mplus (bracketPlus fuel r (fun cap2 r2 => k (cap ++ cap2) r2)) (k cap r))

/-- `(?P<structureddata>-|(?:\[.+?(?<!\\)\])+)`. -/
def matchSD {α : Type} (s : Str) (k : Str → Str → Option α) : Option α :=
  mplus (cls1 (fun c => c = '-') s k) (bracketPlus (s.length + 1) s k)

/-- `(?:\s(?P<msg>.+))?`. -/
def matchMsgOpt {α : Type} (s : Str) (k : Option Str → Str → Option α) : Option α :=
  mplus
    (match s with
     | c :: r =>
         if isPyWs c then repAll1 isDot r (fun cap r2 => k (some cap) r2) else none
     | [] => none)
    (k none s)

/-- The named captures of the syslog line pattern (groupdict content for
the groups the parser consumes). -/
structure MatchGroups where
  priority : Option Str
  version : Option Str
  timestamp : Option Str
  hostname : Option Str
  appname : Option Str
  procid : Option Str
  msgid : Option Str
  structureddata : Option Str
  msg : Option Str
  deriving DecidableEq, Repr

/-- syslog.match(line): the whole compiled pattern, anchored at the start
of the line, trailing input allowed. -/
def syslogMatch (s : Str) : Option MatchGroups :=
  matchPriorityOpt s (fun pri r1 =>
    matchVersionOpt r1 (fun ver r2 =>
      repStar isPyWs r2 (fun r3 =>
        matchTimestamp r3 (fun ts r4 =>
          oneCh isPyWs r4 (fun r5 =>
            tokenField 255 r5 (fun host r6 =>
              tokenField 48 r6 (fun app r7 =>
                tokenField 128 r7 (fun pid r8 =>
                  tokenField 32 r8 (fun mid r9 =>
                    matchSD r9 (fun sd r10 =>
                      matchMsgOpt r10 (fun msg _ =>
                        some ⟨pri, ver, some ts, some host, some app,
                              some pid, some mid, some sd, msg⟩)))))))))))

/- ---------------------------------------------------------------------
   Structured-data extractors (_extract_structs, _extract_ident,
   _extract_kv)
   --------------------------------------------------------------------- -/

/-- One attempt of `\[.+?(?<!\\)\]` at the current position, returning
the matched text and the remaining input. -/
def structAt (s : Str) : Option (Str × Str) :=
  bracketUnit s (fun cap r => some (cap, r))

/-- re.findall scanning loop: try a match at each position, consuming
matched text, otherwise advancing one character. -/
def structScanAux : Nat → Str → List Str
  | 0, _ => []
  | _ + 1, [] => []
  | fuel + 1, c :: rest =>
      match structAt (c :: rest) with
      | some (m, r) => m :: structScanAux fuel r
      | none => structScanAux fuel rest

/-- _extract_structs: all non-overlapping matches of `\[.+?(?<!\\)\]`. -/
def _extract_structs (s : Str) : List Str := structScanAux s.length s

/-- The identity character class `[^\[\=\x22\]\x20]`. -/
def identClass (c : Char) : Bool :=
  !(c = '[' || c = '=' || c = '"' || c = ']' || c = ' ')

/-- One attempt of `\[([^\[\=\x22\]\x20]{1,32})\s` at the current
position. -/
def identAt (s : Str) : Option Str :=
  match s with
  | '[' :: r =>
      repGreedy1 identClass 32 r (fun cap r2 =>
        match r2 with
        | c :: _ => if isPyWs c then some cap else none
        | [] => none)
  | _ => none

/-- _extract_ident: re.search of the identity pattern — try each start
position left to right. -/
def _extract_ident : Str → Option Str
  | [] => none
  | c :: rest => mplus (identAt (c :: rest)) (_extract_ident rest)

/-- One attempt of `(?P<key>\w+)=(?P<val>\"[^\"]*\")` at the current
position, returning key, quoted value (quotes included, as Python's
group does) and the remaining input. -/
def kvAt (s : Str) : Option (Str × Str × Str) :=
  repAll1 isWordChar s (fun key r =>
    match r with
    | '=' :: '"' :: r3 =>
        repStarCap (fun c => c ≠ '"') r3 (fun v r4 =>
          match r4 with
          | '"' :: r5 => some (key, '"' :: (v ++ ['"']), r5)
          | _ => none)
    | _ => none)

/-- re.findall scanning loop for the key-value pattern. -/
def kvScanAux : Nat → Str → List (Str × Str)
  | 0, _ => []
  | _ + 1, [] => []
  | fuel + 1, c :: rest =>
      match kvAt (c :: rest) with
      | some (key, qv, r) => (key, qv) :: kvScanAux fuel r
      | none => kvScanAux fuel rest

/-- The per-value fixup in _extract_kv: apply the escape map to the
quoted value, then drop the surrounding quotes (val[1:-1]). -/
def escVal (qv : Str) : Str := ((applyEscapes qv).drop 1).dropLast

/-- _extract_kv: all key/value pairs of a block, values unescaped and
unquoted. -/
def _extract_kv (s : Str) : List (Str × Str) :=
  (kvScanAux s.length s).map (fun kv => (kv.1, escVal kv.2))

/- ---------------------------------------------------------------------
   Modelled collaborators (jc.utils, jc.streaming): these modules are
   not part of src/, so they are modelled from the spec and from the
   parser's own docstring.
   --------------------------------------------------------------------- -/

def isLeapYear (y : Nat) : Bool := (y % 4 = 0 && y % 100 ≠ 0) || y % 400 = 0

def daysInMonth (y m : Nat) : Nat :=
  if m = 2 then (if isLeapYear y then 29 else 28)
  else if m = 4 || m = 6 || m = 9 || m = 11 then 30
  else 31

/-- Days in the proleptic Gregorian calendar before January 1st of year y. -/
def daysBeforeYear (y : Nat) : Nat :=
  365 * (y - 1) + (y - 1) / 4 - (y - 1) / 100 + (y - 1) / 400

def daysBeforeMonth (y m : Nat) : Nat :=
  (List.range (m - 1)).foldl (fun acc i => acc + daysInMonth y (i + 1)) 0

/-- Seconds since the Unix epoch of a wall-clock date-time (719163 is the
proleptic ordinal of 1970-01-01). -/
def epochSecs (y mo d h mi s : Nat) : Int :=
  ((daysBeforeYear y + daysBeforeMonth y mo + d : Int) - 719163) * 86400
    + h * 3600 + mi * 60 + s

def readDigits2 (s : Str) : Option (Nat × Str) :=
  match s with
  | a :: b :: r =>
      if isDigitCh a && isDigitCh b then
        some ((a.toNat - 48) * 10 + (b.toNat - 48), r)
      else none
  | _ => none

def readDigits4 (s : Str) : Option (Nat × Str) :=
  match s with
  | a :: b :: c :: d :: r =>
      if isDigitCh a && isDigitCh b && isDigitCh c && isDigitCh d then
        some (((a.toNat - 48) * 1000 + (b.toNat - 48) * 100
               + (c.toNat - 48) * 10 + (d.toNat - 48)), r)
      else none
  | _ => none

/-- Parse the optional fractional-seconds part `.d{1,6}` (value unused —
epochs are whole seconds). -/
def skipFrac (s : Str) : Option Str :=
  match s with
  | '.' :: r =>
      let ds := r.takeWhile isDigitCh
      if ds.length ≥ 1 && ds.length ≤ 6 then some (r.drop ds.length) else none
  | _ => some s

/-- Parse the timezone tail; returns whether the offset is literally UTC
(Z or +00:00) and requires the input to end there. -/
def readTz (s : Str) : Option Bool :=
  match s with
  | ['Z'] => some true
  | c :: d1 :: d2 :: ':' :: d3 :: d4 :: [] =>
      if (c = '+' || c = '-') && isDigitCh d1 && isDigitCh d2 && isDigitCh d3 && isDigitCh d4 then
        some (c = '+' && d1 = '0' && d2 = '0' && d3 = '0' && d4 = '0')
      else none
  | _ => none

/-- Parse a timestamp of the layout the parser's format hints (1300,
1310) describe: date, time, optional fraction, timezone; field values
are validated the way strptime would reject impossible dates. -/
def parseTs (s : Str) : Option (Nat × Nat × Nat × Nat × Nat × Nat × Bool) :=
  match readDigits4 s with
  | none => none
  | some (y, r1) =>
    match r1 with
    | '-' :: r2 =>
      match readDigits2 r2 with
      | none => none
      | some (mo, r3) =>
        match r3 with
        | '-' :: r4 =>
          match readDigits2 r4 with
          | none => none
          | some (d, r5) =>
            match r5 with
            | 'T' :: r6 =>
              match readDigits2 r6 with
              | none => none
              | some (h, r7) =>
                match r7 with
                | ':' :: r8 =>
                  match readDigits2 r8 with
                  | none => none
                  | some (mi, r9) =>
                    match r9 with
                    | ':' :: r10 =>
                      match readDigits2 r10 with
                      | none => none
                      | some (se, r11) =>
                        match skipFrac r11 with
                        | none => none
                        | some r12 =>
                          match readTz r12 with
                          | none => none
                          | some tzUtc =>
                            if 1 ≤ mo && mo ≤ 12 && 1 ≤ d && d ≤ daysInMonth y mo
                                && h ≤ 23 && mi ≤ 59 && se ≤ 61 then
                              some (y, mo, d, h, mi, se, tzUtc)
                            else none
                    | _ => none
                | _ => none
            | _ => none
        | _ => none
    | _ => none

structure TsResult where
  naive : Option Int
  utc : Option Int
  deriving DecidableEq, Repr

/-- Modelled from the spec: jc.utils.timestamp is not in src/.  Per the
parser's docstring, `naive` is the epoch of the wall-clock fields when
the timestamp is parsable (its real value shifts by the host's UTC
offset, abstracted to zero here) and null otherwise; `utc` is populated
only when the offset is literally UTC (spec 4.3: Z or +00:00). -/
def jcTimestamp (s : Str) : TsResult :=
  match parseTs s with
  | some (y, mo, d, h, mi, se, tzUtc) =>
      let ep := epochSecs y mo d h mi se
      ⟨some ep, if tzUtc then some ep else none⟩
  | none => ⟨none, none⟩

def digitsToNat : Str → Option Nat
  | [] => none
  | s =>
      if s.all isDigitCh then
        some (s.foldl (fun acc c => acc * 10 + (c.toNat - 48)) 0)
      else none

def parseIntChars (s : Str) : Option Int :=
  match s with
  | '-' :: r => (digitsToNat r).map (fun n => -(n : Int))
  | '+' :: r => (digitsToNat r).map (fun n => (n : Int))
  | _ => (digitsToNat s).map (fun n => (n : Int))

/-- Decimal text accepted by float() and truncated toward zero — the
integer part alone, signs allowed, at least one digit overall. -/
def parseFloatTrunc (s : Str) : Option Int :=
  let core : Str → Option Nat := fun t =>
    match t.splitOn '.' with
    | [ip, fp] =>
        if (ip ++ fp).length ≥ 1 && ip.all isDigitCh && fp.all isDigitCh then
          some (ip.foldl (fun acc c => acc * 10 + (c.toNat - 48)) 0)
        else none
    | _ => none
  match s with
  | '-' :: r => (core r).map (fun n => -(n : Int))
  | '+' :: r => (core r).map (fun n => (n : Int))
  | _ => (core s).map (fun n => (n : Int))

/-- A structured-data entry: identity plus parameters
(spec 3: StructuredEntry). -/
structure StructEntry where
  identity : Option Str
  parameters : List (Str × Str)
  deriving DecidableEq, Repr

/-- A record field value: Python str / int / None / the structured-data
list. -/
inductive FVal where
  | vstr (s : Str)
  | vint (n : Int)
  | vnull
  | vstructs (l : List StructEntry)
  deriving DecidableEq, Repr

/-- Modelled from the spec: jc.utils.convert_to_int is not in src/.
Spec 4.3: integer fields are coerced from text; non-numeric or missing
values resolve to null (Python's int() with a float() fallback). -/
def convert_to_int (v : FVal) : FVal :=
  match v with
  | .vstr s =>
      (match parseIntChars s with
       | some n => .vint n
       | none =>
         match parseFloatTrunc s with
         | some n => .vint n
         | none => .vnull)
  | .vint n => .vint n
  | _ => .vnull

/-- Python truthiness of a field value. -/
def pyTruthy : FVal → Bool
  | .vnull => false
  | .vstr s => !s.isEmpty
  | .vint n => n ≠ 0
  | .vstructs l => !l.isEmpty

/-- value.strip() for the one value type it is applied to. -/
def fvalStrip : FVal → FVal
  | .vstr s => .vstr (stripWs s)
  | v => v

/- ---------------------------------------------------------------------
   Records as insertion-ordered dictionaries
   --------------------------------------------------------------------- -/

abbrev Dict := List (String × FVal)

def dget : Dict → String → Option FVal
  | [], _ => none
  | (k, v) :: rest, key => if k = key then some v else dget rest key

/-- Python dict assignment: update in place, else append. -/
def dset : Dict → String → FVal → Dict
  | [], key, val => [(key, val)]
  | (k, v) :: rest, key, val =>
      if k = key then (k, val) :: rest else (k, v) :: dset rest key val

def dkeys (d : Dict) : List String := d.map Prod.fst

def kPriority : String := "priority"
def kVersion : String := "version"
def kTimestamp : String := "timestamp"
def kTimestampEpoch : String := "timestamp_epoch"
def kTimestampEpochUtc : String := "timestamp_epoch_utc"
def kHostname : String := "hostname"
def kAppname : String := "appname"
def kProcId : String := "proc_id"
def kMsgId : String := "msg_id"
def kStructuredData : String := "structured_data"
def kMessage : String := "message"
def kUnparsable : String := "unparsable"

def baseKeys : List String :=
  [kPriority, kVersion, kTimestamp, kHostname, kAppname, kProcId, kMsgId,
   kStructuredData, kMessage]

def epochKeys : List String := [kTimestampEpoch, kTimestampEpochUtc]

/- ---------------------------------------------------------------------
   _process (final processing to conform to the schema)
   --------------------------------------------------------------------- -/

/-- The whitespace-strip loop over all truthy values. -/
def stripPass (d : Dict) : Dict :=
  d.map (fun kv => (kv.1, if pyTruthy kv.2 then fvalStrip kv.2 else kv.2))

/-- Add timestamp_epoch / timestamp_epoch_utc when a truthy timestamp is
present. -/
def tsPass (d : Dict) : Dict :=
  match dget d kTimestamp with
  | some (.vstr s) =>
      if s ≠ [] then
        let dt := jcTimestamp s
        dset (dset d kTimestampEpoch (match dt.naive with
                                      | some n => .vint n
                                      | none => .vnull))
             kTimestampEpochUtc (match dt.utc with
                                 | some n => .vint n
                                 | none => .vnull)
      else d
  | _ => d

/-- Apply the escape map to a truthy message. -/
def msgPass (d : Dict) : Dict :=
  match dget d kMessage with
  | some (.vstr s) =>
      if s ≠ [] then dset d kMessage (.vstr (applyEscapes s)) else d
  | _ => d

/-- The parameters dict of one block: my_values.update over the extracted
single-pair dicts (last write wins). -/
def updParams (acc : List (Str × Str)) (kv : Str × Str) : List (Str × Str) :=
  if acc.any (fun p => p.1 = kv.1) then
    acc.map (fun p => if p.1 = kv.1 then (p.1, kv.2) else p)
  else acc ++ [kv]

/-- One structured-data block turned into a StructEntry. -/
def buildStruct (e : Str) : StructEntry :=
  ⟨_extract_ident e, (_extract_kv e).foldl updParams []⟩

def buildStructs (s : Str) : List StructEntry :=
  (_extract_structs s).map buildStruct

/-- Replace a truthy structured_data string by its parsed entries. -/
def sdPass (d : Dict) : Dict :=
  match dget d kStructuredData with
  | some (.vstr s) =>
      if s ≠ [] then dset d kStructuredData (.vstructs (buildStructs s)) else d
  | _ => d

/-- Integer coercion of the int_list fields. -/
def intPass (d : Dict) : Dict :=
  d.map (fun kv =>
    (kv.1,
     if kv.1 = kPriority || kv.1 = kVersion || kv.1 = kProcId then
       convert_to_int kv.2
     else kv.2))

/-- _process: strip values, derive timestamps, unescape the message,
parse structured data, coerce integers — in source order. -/
def _process (d : Dict) : Dict :=
  intPass (sdPass (msgPass (tsPass (stripPass d))))

/- ---------------------------------------------------------------------
   parse: per-line record construction and the stream driver
   --------------------------------------------------------------------- -/

def optStr : Option Str → FVal
  | some s => .vstr s
  | none => .vnull

/-- The groupdict loop replacing '-' captures by None. -/
def dashSub : Option Str → Option Str
  | some s => if s = ['-'] then none else some s
  | none => none

/-- priority handling: dash substitution, then strip the angle brackets
of a truthy capture ([1:-1]). -/
def priorityField (p : Option Str) : Option Str :=
  match dashSub p with
  | some s => if s = [] then none else some ((s.drop 1).dropLast)
  | none => none

/-- output_line for a matched line, in dict literal order. -/
def buildMatched (m : MatchGroups) : Dict :=
  [(kPriority, optStr (priorityField m.priority)),
   (kVersion, optStr (dashSub m.version)),
   (kTimestamp, optStr (dashSub m.timestamp)),
   (kHostname, optStr (dashSub m.hostname)),
   (kAppname, optStr (dashSub m.appname)),
   (kProcId, optStr (dashSub m.procid)),
   (kMsgId, optStr (dashSub m.msgid)),
   (kStructuredData, optStr (dashSub m.structureddata)),
   (kMessage, optStr (dashSub m.msg))]

/-- output_line for an unmatched line. -/
def unparsableDict (line : Str) : Dict :=
  [(kUnparsable, .vstr (rstripWs line))]

/-- The warning text written for an unparsable line (jc.utils'
warning side-channel is modelled as the list of emitted messages). -/
def warnMsg (line : Str) : Str := chars "Unparsable line found: " ++ rstripWs line

/-- One iteration of the parse loop body for a line that is a string:
blank lines are skipped, matched lines become records, unmatched lines
become unparsable records plus a warning unless quiet; raw mode skips
_process.  Processing a string line never raises. -/
def processLine (raw quiet : Bool) (line : Str) : Option Dict × List Str :=
  if stripWs line = [] then (none, [])
  else
    match syslogMatch line with
    | some m =>
        (some (if raw then buildMatched m else _process (buildMatched m)), [])
    | none =>
        (some (if raw then unparsableDict line else _process (unparsableDict line)),
         if quiet then [] else [warnMsg line])

/-- An item of the input iterable: a text line, or a non-text item
(whose repr is carried for the error path). -/
inductive Item where
  | str (line : Str)
  | nonStr (rep : Str)
  deriving DecidableEq, Repr

/-- The error kinds the per-line try/except can see: the input-contract
TypeError raised by streaming_line_input_type_check, and data errors
(spec 7: NormalizationFailure). -/
inductive JcError where
  | typeError (msg : Str)
  | parseError (msg : Str)
  deriving DecidableEq, Repr

/-- Spec 7(3): only the non-text input error is the fatal caller
contract violation. -/
def JcError.isContractViolation : JcError → Bool
  | .typeError _ => true
  | .parseError _ => false

def errMsg : JcError → Str
  | .typeError m => m
  | .parseError m => m

def typeErrorMsg : Str := chars "Input line must be a string."

/-- The Outcome envelope data attached by the metadata annotation hook. -/
inductive Meta where
  | success
  | failure (error : Str) (line : Str)
  deriving DecidableEq, Repr

/-- An emitted item: the record dict, plus the Outcome envelope when the
caller requested tolerant mode. -/
structure Output where
  record : Dict
  meta : Option Meta
  deriving DecidableEq, Repr

/-- Modelled from the spec: jc.streaming.raise_or_yield is not in src/.
Spec 7: in tolerant mode a data error becomes a success=false envelope
carrying the description and the offending line; the input-contract
violation always re-raises regardless of mode. -/
def raise_or_yield (ignore_exceptions : Bool) (e : JcError) (line : Str) :
    Except JcError Output :=
  if ignore_exceptions && !e.isContractViolation then
    .ok ⟨[], some (.failure (errMsg e) line)⟩
  else .error e

/-- Modelled from the spec: jc.streaming.add_jc_meta is not in src/.
Spec 6: in tolerant mode every emitted record is wrapped with the
envelope; in strict/quiet modes the envelope is never attached. -/
def wrapMeta (ignore_exceptions : Bool) (d : Dict) : Output :=
  ⟨d, if ignore_exceptions then some .success else none⟩

/-- One item of the driver loop: the try body (type check, then
processLine) with the except clause routing any exception through
raise_or_yield. -/
def handleItem (raw quiet ignore_exceptions : Bool) :
    Item → Except JcError (Option Output × List Str)
  | .nonStr rep =>
      (match raise_or_yield ignore_exceptions (.typeError typeErrorMsg) rep with
       | .error e => .error e
       | .ok o => .ok (some o, []))
  | .str line =>
      let r := processLine raw quiet line
      .ok (r.1.map (wrapMeta ignore_exceptions), r.2)

/-- The parse generator over the whole input: emitted outputs, emitted
warnings, and the exception that terminated the stream, if any. -/
def parse (raw quiet ignore_exceptions : Bool) :
    List Item → List Output × List Str × Option JcError
  | [] => ([], [], none)
  | it :: rest =>
      match handleItem raw quiet ignore_exceptions it with
      | .error e => ([], [], some e)
      | .ok (o, ws) =>
          let r := parse raw quiet ignore_exceptions rest
          (match o with
           | some out => out :: r.1
           | none => r.1, ws ++ r.2.1, r.2.2)

/- ---------------------------------------------------------------------
   Spec-side definitions for refinement comparisons
   --------------------------------------------------------------------- -/

/-- Following claim C6's words, for comparison with _extract_ident: the
leading run of 1-32 qualifying characters directly following the
opening bracket. -/
def claimLeadingIdent (s : Str) : Option Str :=
  match s with
  | '[' :: r =>
      let run := r.takeWhile identClass
      if run = [] then none else some (run.take 32)
  | _ => none

/-- Following claim C7's words, for comparison with applyEscapes: a
single left-to-right pass replacing each escape sequence of the
original text. -/
def claimEscapes : Str → Str
  | [] => []
  | '\\' :: c :: rest =>
      if c = '\\' || c = '"' || c = ']' then c :: claimEscapes rest
      else '\\' :: claimEscapes (c :: rest)
  | c :: rest => c :: claimEscapes rest

/-- Convenience accessor for concrete evaluations in the theorems below. -/
def recOf (line : Str) : Dict := ((processLine false false line).1).getD []

/-- Whether an optional field value is a populated integer. -/
def isIntVal : Option FVal → Bool
  | some (.vint _) => true
  | _ => false

/- ---------------------------------------------------------------------
   Supporting lemmas: stripping
   --------------------------------------------------------------------- -/

theorem dropWhile_idem (p : Char → Bool) : ∀ (l : Str),
    List.dropWhile p (List.dropWhile p l) = List.dropWhile p l
  | [] => rfl
  | c :: t => by
      by_cases h : p c
      · simp [List.dropWhile, h, dropWhile_idem p t]
      · simp [List.dropWhile, h]

theorem dropWhile_append_single (p : Char → Bool) (a : Char) (h : p a = false) :
    ∀ (xs : Str), List.dropWhile p (xs ++ [a]) = List.dropWhile p xs ++ [a]
  | [] => by simp [List.dropWhile, h]
  | c :: t => by
      by_cases hc : p c
      · simp [List.dropWhile, hc, dropWhile_append_single p a h t]
      · simp [List.dropWhile, hc]

theorem rstripWs_cons (c : Char) (t : Str) (h : isPyWs c = false) :
    rstripWs (c :: t) = c :: rstripWs t := by
  unfold rstripWs
  simp [dropWhile_append_single isPyWs c h]

theorem stripWs_cons_ne_nil (c : Char) (t : Str) (h : isPyWs c = false) :
    stripWs (c :: t) ≠ [] := by
  unfold stripWs lstripWs
  rw [rstripWs_cons c t h]
  simp [List.dropWhile, h]

theorem rstripWs_idem (l : Str) : rstripWs (rstripWs l) = rstripWs l := by
  unfold rstripWs
  simp [dropWhile_idem]

theorem stripWs_rstripWs (l : Str) : stripWs (rstripWs l) = stripWs l := by
  unfold stripWs
  rw [rstripWs_idem]

theorem stripWs_of_rstripWs_nil (l : Str) (h : rstripWs l = []) : stripWs l = [] := by
  unfold stripWs
  rw [h]
  rfl

/- ---------------------------------------------------------------------
   Supporting lemmas: dictionaries
   --------------------------------------------------------------------- -/

theorem dget_mem : ∀ (d : Dict) (k : String) (v : FVal), dget d k = some v → k ∈ dkeys d
  | [], _, _, h => by simp [dget] at h
  | (k1, v1) :: rest, k, v, h => by
      by_cases hk : k1 = k
      · simp [dkeys, hk]
      · simp only [dget, if_neg hk] at h
        simp [dkeys]
        right
        have := dget_mem rest k v h
        simpa [dkeys] using this

theorem dkeys_dset_of_mem : ∀ (d : Dict) (k : String) (v : FVal),
    k ∈ dkeys d → dkeys (dset d k v) = dkeys d
  | [], k, v, h => by simp [dkeys] at h
  | (k1, v1) :: rest, k, v, h => by
      by_cases hk : k1 = k
      · simp [dset, hk, dkeys]
      · have hmem : k ∈ dkeys rest := by
          simpa [dkeys, hk, Ne.symm hk] using h
        simp [dset, hk, dkeys, dkeys_dset_of_mem rest k v hmem]
        simpa [dkeys] using dkeys_dset_of_mem rest k v hmem

theorem dkeys_dset_of_not_mem : ∀ (d : Dict) (k : String) (v : FVal),
    k ∉ dkeys d → dkeys (dset d k v) = dkeys d ++ [k]
  | [], k, v, _ => rfl
  | (k1, v1) :: rest, k, v, h => by
      have hk : k1 ≠ k := by
        intro hc
        exact h (by simp [dkeys, hc])
      have hmem : k ∉ dkeys rest := by
        intro hc
        exact h (by simp [dkeys]; right; simpa [dkeys] using hc)
      simp [dset, hk, dkeys]
      simpa [dkeys] using dkeys_dset_of_not_mem rest k v hmem

theorem dget_dset_self : ∀ (d : Dict) (k : String) (v : FVal), dget (dset d k v) k = some v
  | [], k, v => by simp [dset, dget]
  | (k1, v1) :: rest, k, v => by
      by_cases hk : k1 = k
      · simp [dset, hk, dget]
      · simp [dset, hk, dget, dget_dset_self rest k v]

theorem dkeys_map_snd (f : String × FVal → FVal) (d : Dict) :
    dkeys (d.map (fun kv => (kv.1, f kv))) = dkeys d := by
  induction d with
  | nil => rfl
  | cons kv rest ih => simp [dkeys, ih]

/- ---------------------------------------------------------------------
   Supporting lemmas: the _process passes
   --------------------------------------------------------------------- -/

theorem dkeys_stripPass (d : Dict) : dkeys (stripPass d) = dkeys d :=
  dkeys_map_snd _ d

theorem dkeys_intPass (d : Dict) : dkeys (intPass d) = dkeys d :=
  dkeys_map_snd _ d

theorem dkeys_msgPass (d : Dict) : dkeys (msgPass d) = dkeys d := by
  unfold msgPass
  split
  · split
    · next s hget _ =>
        exact dkeys_dset_of_mem d kMessage _ (dget_mem d kMessage _ hget)
    · rfl
  · rfl

theorem dkeys_sdPass (d : Dict) : dkeys (sdPass d) = dkeys d := by
  unfold sdPass
  split
  · split
    · next s hget _ =>
        exact dkeys_dset_of_mem d kStructuredData _ (dget_mem d kStructuredData _ hget)
    · rfl
  · rfl

theorem epoch_keys_ne : kTimestampEpoch ≠ kTimestampEpochUtc := by decide

theorem dkeys_tsPass_vstr (d : Dict) (s : Str)
    (hget : dget d kTimestamp = some (.vstr s)) (hne : s ≠ [])
    (h1 : kTimestampEpoch ∉ dkeys d) (h2 : kTimestampEpochUtc ∉ dkeys d) :
    dkeys (tsPass d) = dkeys d ++ epochKeys := by
  unfold tsPass
  rw [hget]
  simp only [if_pos hne]
  rw [dkeys_dset_of_not_mem _ kTimestampEpochUtc _ (by
        rw [dkeys_dset_of_not_mem d kTimestampEpoch _ h1]
        simp [h2, Ne.symm epoch_keys_ne]),
      dkeys_dset_of_not_mem d kTimestampEpoch _ h1]
  simp [epochKeys]

theorem tsPass_of_vnull (d : Dict) (hget : dget d kTimestamp = some FVal.vnull) :
    tsPass d = d := by
  unfold tsPass
  rw [hget]

theorem dkeys_tsPass_or (d : Dict)
    (h1 : kTimestampEpoch ∉ dkeys d) (h2 : kTimestampEpochUtc ∉ dkeys d) :
    dkeys (tsPass d) = dkeys d ∨ dkeys (tsPass d) = dkeys d ++ epochKeys := by
  unfold tsPass
  split
  · next s hget =>
      split
      · next hne =>
          right
          rw [dkeys_dset_of_not_mem _ kTimestampEpochUtc _ (by
                rw [dkeys_dset_of_not_mem d kTimestampEpoch _ h1]
                simp [h2, Ne.symm epoch_keys_ne]),
              dkeys_dset_of_not_mem d kTimestampEpoch _ h1]
          simp [epochKeys]
      · exact Or.inl rfl
  · exact Or.inl rfl

theorem dkeys_process_or (d : Dict)
    (h1 : kTimestampEpoch ∉ dkeys d) (h2 : kTimestampEpochUtc ∉ dkeys d) :
    dkeys (_process d) = dkeys d ∨ dkeys (_process d) = dkeys d ++ epochKeys := by
  unfold _process
  rw [dkeys_intPass, dkeys_sdPass, dkeys_msgPass]
  have h1s : kTimestampEpoch ∉ dkeys (stripPass d) := by rwa [dkeys_stripPass]
  have h2s : kTimestampEpochUtc ∉ dkeys (stripPass d) := by rwa [dkeys_stripPass]
  rcases dkeys_tsPass_or (stripPass d) h1s h2s with h | h
  · left; rw [h, dkeys_stripPass]
  · right; rw [h, dkeys_stripPass]

theorem process_unparsable (line : Str) :
    _process (unparsableDict line) = [(kUnparsable, FVal.vstr (stripWs line))] := by
  have hstrip : stripPass (unparsableDict line)
      = [(kUnparsable, FVal.vstr (stripWs line))] := by
    unfold unparsableDict stripPass
    cases h : rstripWs line with
    | nil =>
        simp [pyTruthy, fvalStrip, h, stripWs_of_rstripWs_nil line h]
    | cons c r =>
        simp [pyTruthy, fvalStrip, h]
        rw [← h, stripWs_rstripWs]
  unfold _process
  rw [hstrip]
  rfl

/- ---------------------------------------------------------------------
   Inversion lemmas for the matchers: a successful match is a successful
   continuation call
   --------------------------------------------------------------------- -/

theorem mplus_eq_some {α : Type} {a b : Option α} {x : α} (h : mplus a b = some x) :
    a = some x ∨ b = some x := by
  cases a with
  | some y => exact Or.inl (by simpa [mplus] using h)
  | none => exact Or.inr (by simpa [mplus] using h)

theorem repUpTo_inv {α : Type} (p : Char → Bool) :
    ∀ (m : Nat) (s : Str) (k : Str → Str → Option α) (x : α),
      repUpTo p m s k = some x → ∃ cap r, k cap r = some x
  | 0, s, k, x, h => ⟨[], s, h⟩
  | _ + 1, [], k, x, h => ⟨[], [], h⟩
  | m + 1, c :: rest, k, x, h => by
      simp only [repUpTo] at h
      by_cases hc : p c
      · rw [if_pos hc] at h
        rcases mplus_eq_some h with h1 | h1
        · obtain ⟨cap, r, hk⟩ := repUpTo_inv p m rest _ x h1
          exact ⟨c :: cap, r, hk⟩
        · exact ⟨[], c :: rest, h1⟩
      · rw [if_neg hc] at h
        exact ⟨[], c :: rest, h⟩

theorem repGreedy1_inv {α : Type} (p : Char → Bool) (max : Nat) (s : Str)
    (k : Str → Str → Option α) (x : α) (h : repGreedy1 p max s k = some x) :
    ∃ cap r, k cap r = some x := by
  cases s with
  | nil => simp [repGreedy1] at h
  | cons c rest =>
      simp only [repGreedy1] at h
      by_cases hc : p c
      · rw [if_pos hc] at h
        obtain ⟨cap, r, hk⟩ := repUpTo_inv p (max - 1) rest _ x h
        exact ⟨c :: cap, r, hk⟩
      · rw [if_neg hc] at h
        simp at h

theorem repStar_inv {α : Type} (p : Char → Bool) :
    ∀ (s : Str) (k : Str → Option α) (x : α),
      repStar p s k = some x → ∃ r, k r = some x
  | [], k, x, h => ⟨[], h⟩
  | c :: rest, k, x, h => by
      simp only [repStar] at h
      by_cases hc : p c
      · rw [if_pos hc] at h
        rcases mplus_eq_some h with h1 | h1
        · exact repStar_inv p rest k x h1
        · exact ⟨c :: rest, h1⟩
      · rw [if_neg hc] at h
        exact ⟨c :: rest, h⟩

theorem repStarCap_inv {α : Type} (p : Char → Bool) :
    ∀ (s : Str) (k : Str → Str → Option α) (x : α),
      repStarCap p s k = some x → ∃ cap r, k cap r = some x
  | [], k, x, h => ⟨[], [], h⟩
  | c :: rest, k, x, h => by
      simp only [repStarCap] at h
      by_cases hc : p c
      · rw [if_pos hc] at h
        rcases mplus_eq_some h with h1 | h1
        · obtain ⟨cap, r, hk⟩ := repStarCap_inv p rest _ x h1
          exact ⟨c :: cap, r, hk⟩
        · exact ⟨[], c :: rest, h1⟩
      · rw [if_neg hc] at h
        exact ⟨[], c :: rest, h⟩

theorem repAll1_inv {α : Type} (p : Char → Bool) :
    ∀ (s : Str) (k : Str → Str → Option α) (x : α),
      repAll1 p s k = some x → ∃ cap r, k cap r = some x
  | [], k, x, h => by simp [repAll1] at h
  | c :: rest, k, x, h => by
      simp only [repAll1] at h
      by_cases hc : p c
      · rw [if_pos hc] at h
        rcases mplus_eq_some h with h1 | h1
        · obtain ⟨cap, r, hk⟩ := repAll1_inv p rest _ x h1
          exact ⟨c :: cap, r, hk⟩
        · exact ⟨[c], rest, h1⟩
      · rw [if_neg hc] at h
        simp at h

theorem repLazy1_inv {α : Type} (p : Char → Bool) :
    ∀ (s : Str) (k : Str → Str → Option α) (x : α),
      repLazy1 p s k = some x → ∃ cap r, cap ≠ [] ∧ k cap r = some x
  | [], k, x, h => by simp [repLazy1] at h
  | c :: rest, k, x, h => by
      simp only [repLazy1] at h
      by_cases hc : p c
      · rw [if_pos hc] at h
        rcases mplus_eq_some h with h1 | h1
        · exact ⟨[c], rest, by simp, h1⟩
        · obtain ⟨cap, r, _, hk⟩ := repLazy1_inv p rest _ x h1
          exact ⟨c :: cap, r, by simp, hk⟩
      · rw [if_neg hc] at h
        simp at h

theorem oneCh_inv {α : Type} (p : Char → Bool) (s : Str) (k : Str → Option α) (x : α)
    (h : oneCh p s k = some x) : ∃ r, k r = some x := by
  cases s with
  | nil => simp [oneCh] at h
  | cons c rest =>
      simp only [oneCh] at h
      by_cases hc : p c
      · rw [if_pos hc] at h; exact ⟨rest, h⟩
      · rw [if_neg hc] at h; simp at h

theorem litCh_inv {α : Type} (c : Char) (s : Str) (k : Str → Option α) (x : α)
    (h : litCh c s k = some x) : ∃ r, k r = some x := by
  cases s with
  | nil => simp [litCh] at h
  | cons c1 rest =>
      simp only [litCh] at h
      by_cases hc : c1 = c
      · rw [if_pos hc] at h; exact ⟨rest, h⟩
      · rw [if_neg hc] at h; simp at h

theorem cls1_inv {α : Type} (p : Char → Bool) (s : Str) (k : Str → Str → Option α) (x : α)
    (h : cls1 p s k = some x) : ∃ c r, p c = true ∧ k [c] r = some x := by
  cases s with
  | nil => simp [cls1] at h
  | cons c rest =>
      simp only [cls1] at h
      by_cases hc : p c
      · rw [if_pos hc] at h; exact ⟨c, rest, hc, h⟩
      · rw [if_neg hc] at h; simp at h

theorem cls2_inv {α : Type} (p1 p2 : Char → Bool) (s : Str) (k : Str → Str → Option α) (x : α)
    (h : cls2 p1 p2 s k = some x) : ∃ cap r, k cap r = some x := by
  rcases s with _ | ⟨a, _ | ⟨b, r⟩⟩
  · simp [cls2] at h
  · simp [cls2] at h
  · simp only [cls2] at h
    by_cases hc : p1 a && p2 b
    · rw [if_pos hc] at h; exact ⟨[a, b], r, h⟩
    · rw [if_neg hc] at h; simp at h

theorem matchNum_inv {α : Type} (s : Str) (k : Str → Str → Option α) (x : α)
    (h : matchNum s k = some x) : ∃ cap r, k cap r = some x := by
  unfold matchNum at h
  rcases mplus_eq_some h with h1 | h1
  · split at h1
    · split at h1
      · exact ⟨_, _, h1⟩
      · simp at h1
    · simp at h1
  rcases mplus_eq_some h1 with h2 | h2
  · split at h2
    · split at h2
      · exact ⟨_, _, h2⟩
      · simp at h2
    · simp at h2
  rcases mplus_eq_some h2 with h3 | h3
  · split at h3
    · split at h3
      · exact ⟨_, _, h3⟩
      · simp at h3
    · simp at h3
  · split at h3
    · split at h3
      · exact ⟨_, _, h3⟩
      · simp at h3
    · simp at h3

theorem matchPriorityOpt_inv {α : Type} (s : Str) (k : Option Str → Str → Option α) (x : α)
    (h : matchPriorityOpt s k = some x) : ∃ pri r, k pri r = some x := by
  unfold matchPriorityOpt at h
  rcases mplus_eq_some h with h1 | h1
  · obtain ⟨r, h2⟩ := litCh_inv _ _ _ _ h1
    obtain ⟨num, r2, h3⟩ := matchNum_inv _ _ _ h2
    obtain ⟨r3, h4⟩ := litCh_inv _ _ _ _ h3
    exact ⟨_, _, h4⟩
  · exact ⟨none, s, h1⟩

theorem matchVersionOpt_inv {α : Type} (s : Str) (k : Option Str → Str → Option α) (x : α)
    (h : matchVersionOpt s k = some x) : ∃ ver r, k ver r = some x := by
  unfold matchVersionOpt at h
  rcases mplus_eq_some h with h1 | h1
  · obtain ⟨cap, r, h2⟩ := repGreedy1_inv _ _ _ _ _ h1
    exact ⟨some cap, r, h2⟩
  · exact ⟨none, s, h1⟩

theorem matchMonth_inv {α : Type} (s : Str) (k : Str → Str → Option α) (x : α)
    (h : matchMonth s k = some x) : ∃ cap r, k cap r = some x := by
  unfold matchMonth at h
  rcases mplus_eq_some h with h1 | h1
  · exact cls2_inv _ _ _ _ _ h1
  · exact cls2_inv _ _ _ _ _ h1

theorem matchMday_inv {α : Type} (s : Str) (k : Str → Str → Option α) (x : α)
    (h : matchMday s k = some x) : ∃ cap r, k cap r = some x := by
  unfold matchMday at h
  rcases mplus_eq_some h with h1 | h1
  · exact cls2_inv _ _ _ _ _ h1
  · exact cls2_inv _ _ _ _ _ h1

theorem matchHour_inv {α : Type} (s : Str) (k : Str → Str → Option α) (x : α)
    (h : matchHour s k = some x) : ∃ cap r, k cap r = some x := by
  unfold matchHour at h
  rcases mplus_eq_some h with h1 | h1
  · exact cls2_inv _ _ _ _ _ h1
  · exact cls2_inv _ _ _ _ _ h1

theorem matchMinute_inv {α : Type} (s : Str) (k : Str → Str → Option α) (x : α)
    (h : matchMinute s k = some x) : ∃ cap r, k cap r = some x :=
  cls2_inv _ _ _ _ _ h

theorem matchSecond_inv {α : Type} (s : Str) (k : Str → Str → Option α) (x : α)
    (h : matchSecond s k = some x) : ∃ cap r, k cap r = some x := by
  unfold matchSecond at h
  rcases mplus_eq_some h with h1 | h1
  · exact cls2_inv _ _ _ _ _ h1
  · exact cls2_inv _ _ _ _ _ h1

theorem matchSecfracOpt_inv {α : Type} (s : Str) (k : Str → Str → Option α) (x : α)
    (h : matchSecfracOpt s k = some x) : ∃ cap r, k cap r = some x := by
  unfold matchSecfracOpt at h
  rcases mplus_eq_some h with h1 | h1
  · obtain ⟨r, h2⟩ := litCh_inv _ _ _ _ h1
    obtain ⟨cap, r2, h3⟩ := repGreedy1_inv _ _ _ _ _ h2
    exact ⟨_, _, h3⟩
  · exact ⟨[], s, h1⟩

theorem matchNumoffset_inv {α : Type} (s : Str) (k : Str → Str → Option α) (x : α)
    (h : matchNumoffset s k = some x) : ∃ cap r, k cap r = some x := by
  unfold matchNumoffset at h
  rcases mplus_eq_some h with h1 | h1
  · obtain ⟨c, r, _, h2⟩ := cls1_inv _ _ _ _ h1
    exact ⟨[c], r, h2⟩
  · obtain ⟨sg, r, _, h2⟩ := cls1_inv _ _ _ _ h1
    obtain ⟨d1, r, _, h3⟩ := cls1_inv _ _ _ _ h2
    obtain ⟨d2, r, _, h4⟩ := cls1_inv _ _ _ _ h3
    obtain ⟨r, h5⟩ := litCh_inv _ _ _ _ h4
    obtain ⟨d3, r, _, h6⟩ := cls1_inv _ _ _ _ h5
    obtain ⟨d4, r, _, h7⟩ := cls1_inv _ _ _ _ h6
    exact ⟨_, _, h7⟩

theorem matchTsTail_inv {α : Type} (s : Str) (k : Str → Str → Option α) (x : α)
    (h : matchTsTail s k = some x) : ∃ cap r, k cap r = some x := by
  unfold matchTsTail at h
  obtain ⟨y2, r, _, h1⟩ := cls1_inv _ _ _ _ h
  obtain ⟨y3, r, _, h2⟩ := cls1_inv _ _ _ _ h1
  obtain ⟨y4, r, _, h3⟩ := cls1_inv _ _ _ _ h2
  obtain ⟨r, h4⟩ := litCh_inv _ _ _ _ h3
  obtain ⟨mo, r, h5⟩ := matchMonth_inv _ _ _ h4
  obtain ⟨r, h6⟩ := litCh_inv _ _ _ _ h5
  obtain ⟨md, r, h7⟩ := matchMday_inv _ _ _ h6
  obtain ⟨r, h8⟩ := litCh_inv _ _ _ _ h7
  obtain ⟨hh, r, h9⟩ := matchHour_inv _ _ _ h8
  obtain ⟨r, h10⟩ := litCh_inv _ _ _ _ h9
  obtain ⟨mi, r, h11⟩ := matchMinute_inv _ _ _ h10
  obtain ⟨r, h12⟩ := litCh_inv _ _ _ _ h11
  obtain ⟨ss, r, h13⟩ := matchSecond_inv _ _ _ h12
  obtain ⟨sf, r, h14⟩ := matchSecfracOpt_inv _ _ _ h13
  obtain ⟨off, r, h15⟩ := matchNumoffset_inv _ _ _ h14
  exact ⟨_, _, h15⟩

theorem matchFullTs_inv {α : Type} (s : Str) (k : Str → Str → Option α) (x : α)
    (h : matchFullTs s k = some x) :
    ∃ c0 t r, (c0 = '1' ∨ c0 = '2') ∧ k (c0 :: t) r = some x := by
  unfold matchFullTs at h
  split at h
  · next c0 r0 =>
      split at h
      · next hc =>
          obtain ⟨cap, r, h2⟩ := matchTsTail_inv _ _ _ h
          refine ⟨c0, cap, r, ?_, h2⟩
          simpa using hc
      · simp at h
  · simp at h

theorem matchTimestamp_inv {α : Type} (s : Str) (k : Str → Str → Option α) (x : α)
    (h : matchTimestamp s k = some x) :
    ∃ cap r, (cap = ['-'] ∨ ∃ c0 t, cap = c0 :: t ∧ (c0 = '1' ∨ c0 = '2')) ∧
      k cap r = some x := by
  unfold matchTimestamp at h
  rcases mplus_eq_some h with h1 | h1
  · obtain ⟨c, r, hp, h2⟩ := cls1_inv _ _ _ _ h1
    have hc : c = '-' := by simpa using hp
    subst hc
    exact ⟨['-'], r, Or.inl rfl, h2⟩
  · obtain ⟨c0, t, r, hc, h2⟩ := matchFullTs_inv _ _ _ h1
    exact ⟨c0 :: t, r, Or.inr ⟨c0, t, rfl, hc⟩, h2⟩

theorem tokenField_inv {α : Type} (max : Nat) (s : Str) (k : Str → Str → Option α) (x : α)
    (h : tokenField max s k = some x) : ∃ cap r, k cap r = some x := by
  unfold tokenField at h
  obtain ⟨cap, r, h1⟩ := repGreedy1_inv _ _ _ _ _ h
  split at h1
  · split at h1
    · exact ⟨_, _, h1⟩
    · simp at h1
  · simp at h1

theorem bracketUnit_inv {α : Type} (s : Str) (k : Str → Str → Option α) (x : α)
    (h : bracketUnit s k = some x) :
    ∃ mid r, mid ≠ [] ∧ mid.getLast? ≠ some '\\' ∧
      k ('[' :: (mid ++ [']'])) r = some x := by
  unfold bracketUnit at h
  obtain ⟨r, h1⟩ := litCh_inv _ _ _ _ h
  obtain ⟨cap, r2, hne, h2⟩ := repLazy1_inv _ _ _ _ h1
  obtain ⟨r3, h3⟩ := litCh_inv _ _ _ _ h2
  split at h3
  · simp at h3
  · next hlast => exact ⟨cap, r3, hne, hlast, h3⟩

theorem bracketPlus_inv {α : Type} :
    ∀ (fuel : Nat) (s : Str) (k : Str → Str → Option α) (x : α),
      bracketPlus fuel s k = some x → ∃ cap r, k cap r = some x
  | 0, s, k, x, h => by simp [bracketPlus] at h
  | fuel + 1, s, k, x, h => by
      simp only [bracketPlus] at h
      obtain ⟨mid, r, _, _, h1⟩ := bracketUnit_inv _ _ _ h
      rcases mplus_eq_some h1 with h2 | h2
      · obtain ⟨cap2, r2, h3⟩ := bracketPlus_inv fuel r _ x h2
        exact ⟨_, _, h3⟩
      · exact ⟨_, _, h2⟩

theorem matchSD_inv {α : Type} (s : Str) (k : Str → Str → Option α) (x : α)
    (h : matchSD s k = some x) : ∃ cap r, k cap r = some x := by
  unfold matchSD at h
  rcases mplus_eq_some h with h1 | h1
  · obtain ⟨c, r, _, h2⟩ := cls1_inv _ _ _ _ h1
    exact ⟨[c], r, h2⟩
  · exact bracketPlus_inv _ _ _ _ h1

theorem matchMsgOpt_inv {α : Type} (s : Str) (k : Option Str → Str → Option α) (x : α)
    (h : matchMsgOpt s k = some x) : ∃ om r, k om r = some x := by
  unfold matchMsgOpt at h
  rcases mplus_eq_some h with h1 | h1
  · split at h1
    · split at h1
      · obtain ⟨cap, r2, h2⟩ := repAll1_inv _ _ _ _ h1
        exact ⟨_, _, h2⟩
      · simp at h1
    · simp at h1
  · exact ⟨none, s, h1⟩

/-- A successful tokenization captures either the placeholder or a
timestamp beginning with a year digit; downstream this is what makes
the timestamp field either null or a non-blank string. -/
theorem syslogMatch_timestamp (s : Str) (m : MatchGroups)
    (h : syslogMatch s = some m) :
    m.timestamp = some ['-'] ∨
      ∃ c0 t, m.timestamp = some (c0 :: t) ∧ (c0 = '1' ∨ c0 = '2') := by
  unfold syslogMatch at h
  obtain ⟨pri, r1, h1⟩ := matchPriorityOpt_inv _ _ _ h
  obtain ⟨ver, r2, h2⟩ := matchVersionOpt_inv _ _ _ h1
  obtain ⟨r3, h3⟩ := repStar_inv _ _ _ _ h2
  obtain ⟨ts, r4, hts, h4⟩ := matchTimestamp_inv _ _ _ h3
  obtain ⟨r5, h5⟩ := oneCh_inv _ _ _ _ h4
  obtain ⟨host, r6, h6⟩ := tokenField_inv _ _ _ _ h5
  obtain ⟨app, r7, h7⟩ := tokenField_inv _ _ _ _ h6
  obtain ⟨pid, r8, h8⟩ := tokenField_inv _ _ _ _ h7
  obtain ⟨mid, r9, h9⟩ := tokenField_inv _ _ _ _ h8
  obtain ⟨sd, r10, h10⟩ := matchSD_inv _ _ _ h9
  obtain ⟨msg, r11, h11⟩ := matchMsgOpt_inv _ _ _ h10
  have hm : m.timestamp = some ts := by
    have := Option.some.inj h11
    rw [← this]
  rcases hts with hts | ⟨c0, t, hcap, hc⟩
  · left; rw [hm, hts]
  · right; exact ⟨c0, t, by rw [hm, hcap], hc⟩

/- ---------------------------------------------------------------------
   Computation lemmas: greedy runs on well-shaped input
   --------------------------------------------------------------------- -/

theorem repUpTo_exact {α : Type} (p : Char → Bool) :
    ∀ (xs : Str) (m : Nat) (y : Char) (r : Str) (k : Str → Str → Option α) (v : α),
      (∀ c ∈ xs, p c = true) → xs.length ≤ m → p y = false →
      k xs (y :: r) = some v → repUpTo p m (xs ++ y :: r) k = some v
  | [], m, y, r, k, v, _, _, hy, hk => by
      cases m with
      | zero => exact hk
      | succ m => simp only [List.nil_append, repUpTo, hy]; exact hk
  | c :: t, m, y, r, k, v, hall, hlen, hy, hk => by
      cases m with
      | zero => simp at hlen
      | succ m =>
          have hc : p c = true := hall c (by simp)
          simp only [List.cons_append, repUpTo, hc, if_pos, List.append_eq]
          have ih := repUpTo_exact p t m y r (fun cap r2 => k (c :: cap) r2) v
            (fun d hd => hall d (by simp [hd])) (by simpa using hlen) hy hk
          rw [ih]
          rfl

theorem repAll1_exact {α : Type} (p : Char → Bool) :
    ∀ (xs : Str) (y : Char) (r : Str) (k : Str → Str → Option α) (v : α),
      xs ≠ [] → (∀ c ∈ xs, p c = true) → p y = false →
      k xs (y :: r) = some v → repAll1 p (xs ++ y :: r) k = some v
  | [], _, _, _, _, hne, _, _, _ => absurd rfl hne
  | [c], y, r, k, v, _, hall, hy, hk => by
      have hc : p c = true := hall c (by simp)
      simp only [List.cons_append, List.nil_append, repAll1, hc, if_pos, hy]
      simpa [mplus] using hk
  | c :: d :: t, y, r, k, v, _, hall, hy, hk => by
      have hc : p c = true := hall c (by simp)
      have ih := repAll1_exact p (d :: t) y r (fun cap r2 => k (c :: cap) r2) v
        (by simp) (fun e he => hall e (by simp at he ⊢; tauto)) hy hk
      simp only [List.cons_append, List.append_eq] at ih ⊢
      simp only [repAll1, hc, if_pos] at ih ⊢
      rw [ih]
      rfl

theorem repStarCap_exact {α : Type} (p : Char → Bool) :
    ∀ (xs : Str) (y : Char) (r : Str) (k : Str → Str → Option α) (v : α),
      (∀ c ∈ xs, p c = true) → p y = false →
      k xs (y :: r) = some v → repStarCap p (xs ++ y :: r) k = some v
  | [], y, r, k, v, _, hy, hk => by
      simp only [List.nil_append, repStarCap, hy]
      exact hk
  | c :: t, y, r, k, v, hall, hy, hk => by
      have hc : p c = true := hall c (by simp)
      simp only [List.cons_append, repStarCap, hc, if_pos, List.append_eq]
      have ih := repStarCap_exact p t y r (fun cap r2 => k (c :: cap) r2) v
        (fun d hd => hall d (by simp [hd])) hy hk
      rw [ih]
      rfl

/- ---------------------------------------------------------------------
   Computation lemmas: escape resolution across quote boundaries
   --------------------------------------------------------------------- -/

theorem replace2_cons_ne (p2 r c : Char) (hc : c ≠ '\\') (xs : Str) :
    replace2 p2 r (c :: xs) = c :: replace2 p2 r xs := by
  cases xs with
  | nil => rfl
  | cons d t => simp [replace2, hc]

theorem replace2_append_single (p2 r a : Char) :
    ∀ (xs : Str), (a = p2 → xs.getLast? ≠ some '\\') →
      replace2 p2 r (xs ++ [a]) = replace2 p2 r xs ++ [a]
  | [], _ => rfl
  | [c], h => by
      by_cases hc : c = '\\' ∧ a = p2
      · exact absurd (by simp [hc.1]) (h hc.2)
      · have : ¬(c = '\\' && a = p2) = true := by
          simp only [Bool.and_eq_true, decide_eq_true_eq]
          exact fun hx => hc ⟨hx.1, hx.2⟩
        simp only [List.cons_append, List.nil_append, replace2, this, if_neg]
        simp [replace2]
  | c1 :: c2 :: t, h => by
      by_cases hc : c1 = '\\' ∧ c2 = p2
      · have hcond : (c1 = '\\' && c2 = p2) = true := by simp [hc.1, hc.2]
        have ih := replace2_append_single p2 r a t (by
          intro hp
          cases t with
          | nil => simp
          | cons d t2 =>
              have := h hp
              simpa [List.getLast?_cons_cons] using this)
        simp only [List.cons_append, replace2, hcond, if_true, List.append_eq]
        rw [ih]
      · have hcond : (c1 = '\\' && c2 = p2) = false := by
          rw [Bool.and_eq_false_iff]
          by_cases h1 : c1 = '\\'
          · right; simp; exact fun hx => hc ⟨h1, hx⟩
          · left; simp [h1]
        have ih := replace2_append_single p2 r a (c2 :: t) (by
          intro hp
          have := h hp
          simpa [List.getLast?_cons_cons] using this)
        simp only [List.cons_append, List.append_eq] at ih
        simp only [List.cons_append, replace2, hcond, if_false, List.append_eq,
          Bool.false_eq_true]
        rw [ih]

theorem applyEscapes_quoted (inner : Str)
    (hsafe : (replace2 '\\' '\\' inner).getLast? ≠ some '\\') :
    applyEscapes ('"' :: (inner ++ ['"'])) = '"' :: (applyEscapes inner ++ ['"']) := by
  unfold applyEscapes
  rw [replace2_cons_ne '\\' '\\' '"' (by decide) (inner ++ ['"']),
      replace2_append_single '\\' '\\' '"' inner (fun hp => absurd hp (by decide)),
      replace2_cons_ne '"' '"' '"' (by decide) (replace2 '\\' '\\' inner ++ ['"']),
      replace2_append_single '"' '"' '"' (replace2 '\\' '\\' inner) (fun _ => hsafe),
      replace2_cons_ne ']' ']' '"' (by decide)
        (replace2 '"' '"' (replace2 '\\' '\\' inner) ++ ['"']),
      replace2_append_single ']' ']' '"'
        (replace2 '"' '"' (replace2 '\\' '\\' inner)) (fun hp => absurd hp (by decide))]

theorem escVal_quoted (inner : Str)
    (hsafe : (replace2 '\\' '\\' inner).getLast? ≠ some '\\') :
    escVal ('"' :: (inner ++ ['"'])) = applyEscapes inner := by
  unfold escVal
  rw [applyEscapes_quoted inner hsafe]
  simp

/- ---------------------------------------------------------------------
   Computation lemmas: the structured-data extractors on well-shaped
   entries
   --------------------------------------------------------------------- -/

theorem identAt_pos (ident rest : Str) (h1 : ident ≠ []) (h2 : ident.length ≤ 32)
    (h3 : ∀ c ∈ ident, identClass c = true) :
    identAt ('[' :: (ident ++ ' ' :: rest)) = some ident := by
  cases ident with
  | nil => exact absurd rfl h1
  | cons c t =>
      have hc : identClass c = true := h3 c (by simp)
      simp only [identAt, List.cons_append, repGreedy1, hc, if_pos, List.append_eq]
      exact repUpTo_exact identClass t 31 ' ' rest _ (c :: t)
        (fun d hd => h3 d (by simp [hd])) (by simp at h2; omega) (by decide)
        (by simp [isPyWs])

theorem extract_ident_pos (ident rest : Str) (h1 : ident ≠ []) (h2 : ident.length ≤ 32)
    (h3 : ∀ c ∈ ident, identClass c = true) :
    _extract_ident ('[' :: (ident ++ ' ' :: rest)) = some ident := by
  simp only [_extract_ident]
  rw [identAt_pos ident rest h1 h2 h3]
  rfl

theorem kvScanAux_nil (fuel : Nat) : kvScanAux fuel [] = [] := by
  cases fuel <;> rfl

theorem kvAt_single (key inner tail : Str) (hk1 : key ≠ [])
    (hk2 : ∀ c ∈ key, isWordChar c = true) (hin : ∀ c ∈ inner, ¬c = '"') :
    kvAt (key ++ '=' :: '"' :: (inner ++ '"' :: tail))
      = some (key, '"' :: (inner ++ ['"']), tail) := by
  unfold kvAt
  apply repAll1_exact isWordChar key '=' ('"' :: (inner ++ '"' :: tail)) _ _ hk1 hk2
    (by decide)
  show repStarCap (fun c => c ≠ '"') (inner ++ '"' :: tail) _ = _
  apply repStarCap_exact (fun c => c ≠ '"') inner '"' tail _ _
    (fun c hc => by simpa using hin c hc) (by simp)
  rfl

theorem extract_kv_single (key inner : Str) (hk1 : key ≠ [])
    (hk2 : ∀ c ∈ key, isWordChar c = true) (hin : ∀ c ∈ inner, ¬c = '"') :
    _extract_kv (key ++ '=' :: '"' :: (inner ++ ['"']))
      = [(key, escVal ('"' :: (inner ++ ['"'])))] := by
  unfold _extract_kv
  cases key with
  | nil => exact absurd rfl hk1
  | cons c t =>
      have hkv := kvAt_single (c :: t) inner [] hk1 hk2 hin
      simp only [List.cons_append] at hkv ⊢
      simp only [List.length_cons, kvScanAux, hkv, kvScanAux_nil]
      rfl

theorem structScan_shape :
    ∀ (fuel : Nat) (s e : Str), e ∈ structScanAux fuel s →
      ∃ mid, e = '[' :: (mid ++ [']']) ∧ mid ≠ [] ∧ mid.getLast? ≠ some '\\'
  | 0, _, _, h => by simp [structScanAux] at h
  | _ + 1, [], _, h => by simp [structScanAux] at h
  | fuel + 1, c :: rest, e, h => by
      simp only [structScanAux] at h
      cases hsa : structAt (c :: rest) with
      | some mr =>
          obtain ⟨m, r⟩ := mr
          rw [hsa] at h
          simp only [List.mem_cons] at h
          have hsa2 : bracketUnit (c :: rest) (fun cap r => some (cap, r)) = some (m, r) := hsa
          obtain ⟨mid, r2, hne, hlast, heq⟩ := bracketUnit_inv _ _ _ hsa2
          have hpair := Option.some.inj heq
          injection hpair with hm hr
          rcases h with h | h
          · exact ⟨mid, by rw [h, ← hm], hne, hlast⟩
          · exact structScan_shape fuel r e h
      | none =>
          rw [hsa] at h
          exact structScan_shape fuel rest e h

/- ---------------------------------------------------------------------
   Stream driver lemmas
   --------------------------------------------------------------------- -/

theorem processLine_isSome (raw quiet : Bool) (l : Str) :
    ((processLine raw quiet l).1).isSome = !(stripWs l).isEmpty := by
  unfold processLine
  by_cases hb : stripWs l = []
  · simp [hb]
  · rw [if_neg hb]
    cases hm : syslogMatch l <;> simp [hm, List.isEmpty_iff, hb]

theorem parse_map_str (raw quiet ie : Bool) (lines : List Str) :
    parse raw quiet ie (lines.map Item.str) =
      (lines.filterMap (fun l => ((processLine raw quiet l).1).map (wrapMeta ie)),
       (lines.map (fun l => (processLine raw quiet l).2)).flatten,
       none) := by
  induction lines with
  | nil => simp [parse]
  | cons l ls ih =>
      simp only [List.map_cons, parse, handleItem, List.filterMap_cons, List.flatten, ih]
      cases hpl : (processLine raw quiet l).1 <;> simp [hpl]

theorem parse_append_nonstr (raw quiet ie : Bool) (rep : Str) (post : List Item) :
    ∀ (pre : List Str),
      parse raw quiet ie (pre.map Item.str ++ Item.nonStr rep :: post)
        = ((parse raw quiet ie (pre.map Item.str)).1,
           (parse raw quiet ie (pre.map Item.str)).2.1,
           some (JcError.typeError typeErrorMsg))
  | [] => by
      simp only [List.map_nil, List.nil_append, parse, handleItem, raise_or_yield,
        JcError.isContractViolation, Bool.and_false, Bool.not_true]
      rfl
  | l :: ls => by
      have ih := parse_append_nonstr raw quiet ie rep post ls
      simp only [List.map_cons, List.cons_append, parse, handleItem, List.append_eq, ih]

/- ---------------------------------------------------------------------
   Record shape lemmas
   --------------------------------------------------------------------- -/

theorem dkeys_buildMatched (m : MatchGroups) : dkeys (buildMatched m) = baseKeys := rfl

theorem dget_stripPass_buildMatched (m : MatchGroups) :
    dget (stripPass (buildMatched m)) kTimestamp =
      some (if pyTruthy (optStr (dashSub m.timestamp)) = true then
              fvalStrip (optStr (dashSub m.timestamp))
            else optStr (dashSub m.timestamp)) := rfl

theorem dkeys_process_matched_null (m : MatchGroups)
    (h : dashSub m.timestamp = none) :
    dkeys (_process (buildMatched m)) = baseKeys := by
  unfold _process
  rw [dkeys_intPass, dkeys_sdPass, dkeys_msgPass]
  have hget : dget (stripPass (buildMatched m)) kTimestamp = some FVal.vnull := by
    rw [dget_stripPass_buildMatched m, h]
    rfl
  rw [tsPass_of_vnull _ hget, dkeys_stripPass, dkeys_buildMatched]

theorem dkeys_process_matched_ts (m : MatchGroups) (c0 : Char) (t : Str)
    (hts : dashSub m.timestamp = some (c0 :: t)) (hc : isPyWs c0 = false) :
    dkeys (_process (buildMatched m)) = baseKeys ++ epochKeys := by
  unfold _process
  rw [dkeys_intPass, dkeys_sdPass, dkeys_msgPass]
  have hget : dget (stripPass (buildMatched m)) kTimestamp
      = some (FVal.vstr (stripWs (c0 :: t))) := by
    rw [dget_stripPass_buildMatched m, hts]
    rfl
  rw [dkeys_tsPass_vstr _ _ hget (stripWs_cons_ne_nil c0 t hc)
        (by rw [dkeys_stripPass, dkeys_buildMatched]; decide)
        (by rw [dkeys_stripPass, dkeys_buildMatched]; decide),
      dkeys_stripPass, dkeys_buildMatched]

theorem processLine_matched (raw quiet : Bool) (line : Str) (m : MatchGroups)
    (hb : stripWs line ≠ []) (hm : syslogMatch line = some m) :
    processLine raw quiet line
      = (some (if raw then buildMatched m else _process (buildMatched m)), []) := by
  unfold processLine
  rw [if_neg hb, hm]

theorem processLine_record_shape (raw quiet : Bool) (line : Str) (rec : Dict)
    (h : (processLine raw quiet line).1 = some rec) :
    dkeys rec = [kUnparsable] ∨ dkeys rec = baseKeys ∨
      dkeys rec = baseKeys ++ epochKeys := by
  unfold processLine at h
  by_cases hb : stripWs line = []
  · rw [if_pos hb] at h
    simp at h
  · rw [if_neg hb] at h
    cases hm : syslogMatch line with
    | some m =>
        rw [hm] at h
        have hrec : rec = if raw then buildMatched m else _process (buildMatched m) :=
          (Option.some.inj h).symm
        subst hrec
        cases raw with
        | true => right; left; simp [dkeys_buildMatched]
        | false =>
            simp only [Bool.false_eq_true, if_false]
            rcases dkeys_process_or (buildMatched m)
                (by rw [dkeys_buildMatched]; decide)
                (by rw [dkeys_buildMatched]; decide) with h1 | h1
            · right; left; rw [h1, dkeys_buildMatched]
            · right; right; rw [h1, dkeys_buildMatched]
    | none =>
        rw [hm] at h
        have hrec : rec = if raw then unparsableDict line else _process (unparsableDict line) :=
          (Option.some.inj h).symm
        subst hrec
        cases raw with
        | true => left; rfl
        | false =>
            left
            simp only [Bool.false_eq_true, if_false]
            rw [process_unparsable]
            rfl

theorem parse_out_shape :
    ∀ (raw quiet ie : Bool) (data : List Item) (out : Output),
      out ∈ (parse raw quiet ie data).1 →
      dkeys out.record = [kUnparsable] ∨ dkeys out.record = baseKeys ∨
        dkeys out.record = baseKeys ++ epochKeys
  | raw, quiet, ie, [], out, h => by simp [parse] at h
  | raw, quiet, ie, Item.nonStr rep :: rest, out, h => by
      simp only [parse, handleItem, raise_or_yield, JcError.isContractViolation,
        Bool.not_true, Bool.and_false] at h
      simp at h
  | raw, quiet, ie, Item.str line :: rest, out, h => by
      simp only [parse, handleItem] at h
      cases hpl : (processLine raw quiet line).1 with
      | none =>
          rw [hpl] at h
          simp only [Option.map_none'] at h
          exact parse_out_shape raw quiet ie rest out h
      | some rec =>
          rw [hpl] at h
          simp only [Option.map_some', List.mem_cons] at h
          rcases h with h | h
          · have hrec : out.record = rec := by rw [h]; rfl
            rw [hrec]
            exact processLine_record_shape raw quiet line rec hpl
          · exact parse_out_shape raw quiet ie rest out h

theorem length_filterMap_processLine (raw quiet : Bool) :
    ∀ (lines : List Str),
      (lines.filterMap (fun l => ((processLine raw quiet l).1).map (wrapMeta true))).length
        = (lines.filter (fun l => !(stripWs l).isEmpty)).length
  | [] => rfl
  | l :: ls => by
      have ih := length_filterMap_processLine raw quiet ls
      cases hpl : (processLine raw quiet l).1 with
      | none =>
          have hcond : (!(stripWs l).isEmpty) = false := by
            rw [← processLine_isSome raw quiet l, hpl]
            rfl
          simp [List.filterMap_cons, hpl, List.filter_cons, hcond, ih]
      | some rec =>
          have hcond : (!(stripWs l).isEmpty) = true := by
            rw [← processLine_isSome raw quiet l, hpl]
            rfl
          simp [List.filterMap_cons, hpl, List.filter_cons, hcond, ih]

/- ---------------------------------------------------------------------
   Claims
   --------------------------------------------------------------------- -/

/-- C1 (counterexample): the claim says every input line yields exactly
one output record or envelope in tolerant mode; a blank line is skipped
by the parse loop and yields none, so one input line can yield zero
outputs (and no error). -/
theorem claim_C1_counterexample :
    (parse false false true [Item.str []]).1.length ≠ [Item.str []].length ∧
      (parse false false true [Item.str []]).2.2 = none := by
  decide

/-- C1 (amended): in tolerant mode, every NON-BLANK input line yields
exactly one enveloped output, in input order (the output stream is the
in-order image of per-line processing over non-blank lines), the stream
is never terminated by an error, and the modelled raise_or_yield turns
any non-contract (data) error into a success=false envelope carrying the
error description and the offending line. -/
theorem claim_C1 (raw quiet : Bool) (lines : List Str) :
    (parse raw quiet true (lines.map Item.str)).1
        = lines.filterMap
            (fun l => ((processLine raw quiet l).1).map
              (fun r => Output.mk r (some Meta.success)))
      ∧ (parse raw quiet true (lines.map Item.str)).2.2 = none
      ∧ ((parse raw quiet true (lines.map Item.str)).1).length
          = (lines.filter (fun l => !(stripWs l).isEmpty)).length
      ∧ ∀ (e : JcError) (l : Str), e.isContractViolation = false →
          raise_or_yield true e l
            = Except.ok ⟨[], some (Meta.failure (errMsg e) l)⟩ := by
  have hmap := parse_map_str raw quiet true lines
  refine ⟨?_, ?_, ?_, ?_⟩
  · rw [hmap]
    rfl
  · rw [hmap]
  · rw [hmap]
    exact length_filterMap_processLine raw quiet lines
  · intro e l he
    unfold raise_or_yield
    rw [he]
    rfl

/-- C1 (witness): the envelope clause of claim_C1 at a concrete data
error and line. -/
theorem claim_C1_witness :
    raise_or_yield true (JcError.parseError (chars "boom")) (chars "line")
      = Except.ok ⟨[], some (Meta.failure (errMsg (JcError.parseError (chars "boom")))
          (chars "line"))⟩ :=
  (claim_C1 false false []).2.2.2 (JcError.parseError (chars "boom")) (chars "line")
    (by decide)

/-- C2 (counterexample): for the Scenario A line the emitted record's
structured_data field is null, not the empty sequence the claim
states. -/
theorem claim_C2_counterexample :
    dget (recOf (chars "<165>1 2003-08-24T05:14:15.000003Z host01 app - - -"))
        kStructuredData = some FVal.vnull
      ∧ some FVal.vnull ≠ some (FVal.vstructs []) := by
  decide

/-- C2 (amended): parsing the Scenario A line in normalized mode yields
exactly one record with priority 165, version 1, both epoch timestamps
populated integers, structured_data null (the placeholder `-` is nulled
before _process, whose structured-data step skips null), and message
null. -/
theorem claim_C2 :
    (parse false false false
        [Item.str (chars "<165>1 2003-08-24T05:14:15.000003Z host01 app - - -")]).1.length = 1
      ∧ dget (recOf (chars "<165>1 2003-08-24T05:14:15.000003Z host01 app - - -"))
          kPriority = some (FVal.vint 165)
      ∧ dget (recOf (chars "<165>1 2003-08-24T05:14:15.000003Z host01 app - - -"))
          kVersion = some (FVal.vint 1)
      ∧ isIntVal (dget (recOf (chars "<165>1 2003-08-24T05:14:15.000003Z host01 app - - -"))
          kTimestampEpoch) = true
      ∧ isIntVal (dget (recOf (chars "<165>1 2003-08-24T05:14:15.000003Z host01 app - - -"))
          kTimestampEpochUtc) = true
      ∧ dget (recOf (chars "<165>1 2003-08-24T05:14:15.000003Z host01 app - - -"))
          kStructuredData = some FVal.vnull
      ∧ dget (recOf (chars "<165>1 2003-08-24T05:14:15.000003Z host01 app - - -"))
          kMessage = some FVal.vnull := by
  decide

/-- C3 (code bug): priorities 100-109 are missing from the pattern
alternation `\d|\d{2}|1[1-8]\d|19[01]` (its third branch excludes 0 and
9 as second digit), so the well-formed line with priority 100 does not
tokenize at all and is emitted as unparsable, while the same line with
priority 99 or 110 tokenizes with the expected priority. -/
theorem claim_C3 :
    syslogMatch (chars "<100>1 2003-08-24T05:14:15.000003Z host01 app - - -") = none
      ∧ (processLine false true
            (chars "<100>1 2003-08-24T05:14:15.000003Z host01 app - - -")).1
          = some [(kUnparsable,
              FVal.vstr (chars "<100>1 2003-08-24T05:14:15.000003Z host01 app - - -"))]
      ∧ dget (recOf (chars "<99>1 2003-08-24T05:14:15.000003Z host01 app - - -"))
          kPriority = some (FVal.vint 99)
      ∧ dget (recOf (chars "<110>1 2003-08-24T05:14:15.000003Z host01 app - - -"))
          kPriority = some (FVal.vint 110) := by
  decide

/-- C4: every record emitted by the stream, in every mode, either has
exactly the single `unparsable` key, or carries all nine parsed keys and
no `unparsable` key — never both kinds. -/
theorem claim_C4 (raw quiet ie : Bool) (data : List Item) (out : Output)
    (h : out ∈ (parse raw quiet ie data).1) :
    dkeys out.record = [kUnparsable] ∨
      ((∀ k ∈ baseKeys, k ∈ dkeys out.record) ∧ kUnparsable ∉ dkeys out.record) := by
  rcases parse_out_shape raw quiet ie data out h with h1 | h1 | h1
  · left; exact h1
  · right
    rw [h1]
    exact ⟨fun k hk => hk, by decide⟩
  · right
    rw [h1]
    exact ⟨fun k hk => List.mem_append_left _ hk, by decide⟩

/-- C4 (witness): claim_C4 at a concrete unparsable line. -/
theorem claim_C4_witness :
    dkeys (Output.mk [(kUnparsable, FVal.vstr (chars "garbage"))] none).record
        = [kUnparsable] ∨
      ((∀ k ∈ baseKeys,
          k ∈ dkeys (Output.mk [(kUnparsable, FVal.vstr (chars "garbage"))] none).record) ∧
        kUnparsable ∉ dkeys (Output.mk [(kUnparsable, FVal.vstr (chars "garbage"))] none).record) :=
  claim_C4 false true false [Item.str (chars "garbage")]
    (Output.mk [(kUnparsable, FVal.vstr (chars "garbage"))] none) (by decide)

/-- C5: every entry produced by the structured-data split ends with a
closing bracket whose preceding character is not a backslash (an escaped
closing bracket never ends an entry), and concretely a block containing
an escaped closing bracket inside a quoted value is kept whole. -/
theorem claim_C5 :
    (∀ (s e : Str), e ∈ _extract_structs s →
        e.getLast? = some ']' ∧ e.dropLast.getLast? ≠ some '\\')
      ∧ _extract_structs (chars "[id k=\"a\\]b\"]") = [chars "[id k=\"a\\]b\"]"] := by
  constructor
  · intro s e he
    obtain ⟨mid, heq, hne, hlast⟩ := structScan_shape s.length s e he
    subst heq
    constructor
    · rw [show ('[' :: (mid ++ [']'])) = ('[' :: mid) ++ [']'] by simp]
      exact List.getLast?_concat _
    · rw [show ('[' :: (mid ++ [']'])) = ('[' :: mid) ++ [']'] by simp]
      rw [List.dropLast_concat]
      cases mid with
      | nil => exact absurd rfl hne
      | cons d t =>
          rw [List.getLast?_cons_cons]
          exact hlast
  · decide

/-- C5 (witness): claim_C5's universal part at a concrete split. -/
theorem claim_C5_witness :
    (chars "[a b]").getLast? = some ']' ∧ (chars "[a b]").dropLast.getLast? ≠ some '\\' :=
  claim_C5.1 (chars "[a b]") (chars "[a b]") (by decide)

/-- C6 (counterexample): the claim predicts the identity of entry
`[abc]` (a real output of the splitter) to be its leading qualifying run
`abc`, but the identity pattern also requires a following whitespace
character, so the code extracts no identity at all. -/
theorem claim_C6_counterexample :
    claimLeadingIdent (chars "[abc]") = some (chars "abc")
      ∧ _extract_ident (chars "[abc]") = none
      ∧ _extract_structs (chars "[abc]") = [chars "[abc]"] := by
  decide

/-- C6 (amended): for an entry whose opening bracket is directly
followed by a run of 1-32 qualifying characters and then a whitespace
character, the extracted identity is exactly that run; and an entry with
no key/value pairs yields an empty parameters mapping. -/
theorem claim_C6 :
    (∀ (ident rest : Str), ident ≠ [] → ident.length ≤ 32 →
        (∀ c ∈ ident, identClass c = true) →
        _extract_ident ('[' :: (ident ++ ' ' :: rest)) = some ident)
      ∧ (∀ e : Str, _extract_kv e = [] → (buildStruct e).parameters = []) := by
  constructor
  · exact extract_ident_pos
  · intro e he
    unfold buildStruct
    rw [he]
    rfl

/-- C6 (witness): claim_C6 at the Scenario C identity and at an entry
with no key/value pairs. -/
theorem claim_C6_witness :
    _extract_ident ('[' :: (chars "exampleSDID@32473" ++ ' ' :: chars "iut=\"3\"]"))
        = some (chars "exampleSDID@32473")
      ∧ (buildStruct (chars "[x]")).parameters = [] :=
  ⟨claim_C6.1 (chars "exampleSDID@32473") (chars "iut=\"3\"]") (by decide) (by decide)
      (by decide),
    claim_C6.2 (chars "[x]") (by decide)⟩

/-- C7 (counterexample): escape resolution is three sequential
replacements, not a single pass over the original text: in `a\\]b` the
original escapes are backslash-backslash followed by a literal bracket,
whose one-pass resolution is `a\]b`, but the code's sequential passes
produce `a]b`. -/
theorem claim_C7_counterexample :
    applyEscapes (chars "a\\\\]b") = chars "a]b"
      ∧ claimEscapes (chars "a\\\\]b") = chars "a\\]b"
      ∧ applyEscapes (chars "a\\\\]b") ≠ claimEscapes (chars "a\\\\]b") := by
  decide

/-- C7 (amended): the same sequential escape table applyEscapes is
applied to the message field by _process's message step and to each
key/value value extracted from structured data (for values whose
backslash-resolved form does not end in a backslash, so that no
replacement crosses the closing quote). -/
theorem claim_C7 :
    (∀ (d : Dict) (s : Str), dget d kMessage = some (FVal.vstr s) → s ≠ [] →
        dget (msgPass d) kMessage = some (FVal.vstr (applyEscapes s)))
      ∧ (∀ (key inner : Str), key ≠ [] → (∀ c ∈ key, isWordChar c = true) →
          (∀ c ∈ inner, ¬c = '"') →
          (replace2 '\\' '\\' inner).getLast? ≠ some '\\' →
          _extract_kv (key ++ '=' :: '"' :: (inner ++ ['"']))
            = [(key, applyEscapes inner)]) := by
  constructor
  · intro d s hget hne
    unfold msgPass
    simp only [hget]
    rw [if_pos hne, dget_dset_self]
  · intro key inner hk1 hk2 hin hsafe
    rw [extract_kv_single key inner hk1 hk2 hin, escVal_quoted inner hsafe]

/-- C7 (witness): claim_C7 at a concrete message and a concrete
key/value pair, both containing escapes. -/
theorem claim_C7_witness :
    dget (msgPass [(kMessage, FVal.vstr (chars "x\\]y"))]) kMessage
        = some (FVal.vstr (applyEscapes (chars "x\\]y")))
      ∧ _extract_kv (chars "k" ++ '=' :: '"' :: (chars "ab12" ++ ['"']))
          = [(chars "k", applyEscapes (chars "ab12"))] :=
  ⟨claim_C7.1 [(kMessage, FVal.vstr (chars "x\\]y"))] (chars "x\\]y") (by decide)
      (by decide),
    claim_C7.2 (chars "k") (chars "ab12") (by decide) (by decide) (by decide)
      (by decide)⟩

/-- C8 (counterexample): the unparsable record holds the line with ALL
trailing whitespace stripped (Python rstrip), not just a trailing
newline as the claim states: a non-matching line ending in a space loses
that space. -/
theorem claim_C8_counterexample :
    (processLine false false (chars "garbage line ")).1
        = some [(kUnparsable, FVal.vstr (chars "garbage line"))]
      ∧ chars "garbage line" ≠ chars "garbage line " := by
  decide

/-- C8 (amended): for every non-blank line that does not match the
syslog layout, the parser emits exactly one record whose only field is
`unparsable` holding the line with trailing whitespace stripped (and
with leading whitespace also stripped in normalized mode, by _process's
strip step), emits exactly one warning unless quiet, and raises no
exception (processLine is total on text lines). -/
theorem claim_C8 (raw quiet : Bool) (line : Str) (hb : stripWs line ≠ [])
    (hm : syslogMatch line = none) :
    processLine raw quiet line
      = (some [(kUnparsable,
            FVal.vstr (if raw then rstripWs line else stripWs line))],
         if quiet then [] else [warnMsg line]) := by
  unfold processLine
  rw [if_neg hb, hm]
  cases raw with
  | false => simp [process_unparsable line]
  | true => simp [unparsableDict]

/-- C8 (witness): claim_C8 at a concrete unparsable line in normalized
non-quiet mode. -/
theorem claim_C8_witness :
    processLine false false (chars "garbage")
      = (some [(kUnparsable,
            FVal.vstr (if false then rstripWs (chars "garbage")
                       else stripWs (chars "garbage")))],
         if false then [] else [warnMsg (chars "garbage")]) :=
  claim_C8 false false (chars "garbage") (by decide) (by decide)

/-- C9: a non-text item in the input raises the input-contract TypeError
and terminates the stream regardless of the error-recovery mode
(including tolerant mode): the stream's outputs and warnings are exactly
those of the text prefix before the offending item, the terminal error
is the TypeError, and nothing after the item is processed. -/
theorem claim_C9 (raw quiet ie : Bool) (pre : List Str) (rep : Str) (post : List Item) :
    parse raw quiet ie (pre.map Item.str ++ Item.nonStr rep :: post)
      = ((parse raw quiet ie (pre.map Item.str)).1,
         (parse raw quiet ie (pre.map Item.str)).2.1,
         some (JcError.typeError typeErrorMsg)) :=
  parse_append_nonstr raw quiet ie rep post pre

/-- C10: a successfully tokenized line emitted in normalized mode
carries the nine base keys, extended by timestamp_epoch and
timestamp_epoch_utc exactly when the dash-substituted raw timestamp is
non-null; when the timestamp is the placeholder, the epoch keys are
absent from the record entirely. -/
theorem claim_C10 (line : Str) (m : MatchGroups) (quiet : Bool) (rec : Dict)
    (ws : List Str) (hm : syslogMatch line = some m)
    (hp : processLine false quiet line = (some rec, ws)) :
    dkeys rec = if (dashSub m.timestamp).isSome then baseKeys ++ epochKeys
                else baseKeys := by
  by_cases hb : stripWs line = []
  · rw [show processLine false quiet line = (none, []) from by
        unfold processLine; rw [if_pos hb]] at hp
    simp at hp
  · have h2 := processLine_matched false quiet line m hb hm
    rw [hp] at h2
    have hrec : rec = _process (buildMatched m) := by
      have := congrArg Prod.fst h2
      simpa using this
    subst hrec
    rcases syslogMatch_timestamp line m hm with hts | ⟨c0, t, hts, hc⟩
    · have hdash : dashSub m.timestamp = none := by
        rw [hts]
        rfl
      rw [hdash]
      simp only [Option.isSome_none, Bool.false_eq_true, if_false]
      exact dkeys_process_matched_null m hdash
    · have hdash : dashSub m.timestamp = some (c0 :: t) := by
        rw [hts]
        simp only [dashSub]
        rw [if_neg]
        intro hcontra
        injection hcontra with hc0 hrest
        rcases hc with h | h <;> rw [h] at hc0 <;> exact absurd hc0 (by decide)
      rw [hdash]
      simp only [Option.isSome_some, if_true]
      exact dkeys_process_matched_ts m c0 t hdash
        (by rcases hc with h | h <;> rw [h] <;> decide)

/-- C10 (witness): claim_C10 at the concrete Scenario A line, whose
tokenization and processed record are evaluated. -/
theorem claim_C10_witness :
    dkeys [(kPriority, FVal.vint 165), (kVersion, FVal.vint 1),
           (kTimestamp, FVal.vstr (chars "2003-08-24T05:14:15.000003Z")),
           (kHostname, FVal.vstr (chars "host01")),
           (kAppname, FVal.vstr (chars "app")),
           (kProcId, FVal.vnull), (kMsgId, FVal.vnull),
           (kStructuredData, FVal.vnull), (kMessage, FVal.vnull),
           (kTimestampEpoch, FVal.vint 1061702055),
           (kTimestampEpochUtc, FVal.vint 1061702055)]
      = if (dashSub (MatchGroups.mk (some (chars "<165>")) (some (chars "1"))
              (some (chars "2003-08-24T05:14:15.000003Z")) (some (chars "host01"))
              (some (chars "app")) (some (chars "-")) (some (chars "-"))
              (some (chars "-")) none).timestamp).isSome
        then baseKeys ++ epochKeys else baseKeys :=
  claim_C10 (chars "<165>1 2003-08-24T05:14:15.000003Z host01 app - - -")
    (MatchGroups.mk (some (chars "<165>")) (some (chars "1"))
      (some (chars "2003-08-24T05:14:15.000003Z")) (some (chars "host01"))
      (some (chars "app")) (some (chars "-")) (some (chars "-"))
      (some (chars "-")) none)
    false
    [(kPriority, FVal.vint 165), (kVersion, FVal.vint 1),
     (kTimestamp, FVal.vstr (chars "2003-08-24T05:14:15.000003Z")),
     (kHostname, FVal.vstr (chars "host01")),
     (kAppname, FVal.vstr (chars "app")),
     (kProcId, FVal.vnull), (kMsgId, FVal.vnull),
     (kStructuredData, FVal.vnull), (kMessage, FVal.vnull),
     (kTimestampEpoch, FVal.vint 1061702055),
     (kTimestampEpochUtc, FVal.vint 1061702055)]
    [] (by decide) (by decide)
